import Mathlib

/-!
A shallow embedding of the task-synchronization core of `goemon-cli`
(`src/goemon/api.py`): the `Task` model, its per-field setters with
change tracking, the file-set reconciliation algorithm in the
`Task.files` setter, patch serialization (`Task.serialize_as_task`)
and the pending-transfer accessor (`Task.get_data_files`).

Modelling decisions:
* YAML encode/decode is out of scope (spec §1); getters/setters are
  modelled at the structured level, on the values obtained after
  `yaml.load` / before `yaml.dump`.
* File descriptors are modelled as records with exactly the five keys
  required by `Task._validate_file` (name/type/importType/preload/
  priority), matching the descriptor shape of spec §4.3; with this
  typing `_validate_file` always succeeds, so its checks are implicit.
* `hashlib.sha256(...).hexdigest()` is modelled by an explicit hash
  function parameter `h : List Nat → String` over the file's bytes;
  the file system is a pure map from paths to bytes and mtimes.
* Python exceptions become `Except Err`; Python's `IndexError` (raised
  by `[...][0]` on an empty list) is a subclass of `LookupError`, and
  is modelled as `Err.lookupError`.
* Mutation of `self` becomes explicit state passing: each setter maps
  the old `Task` to `Except Err Task`; an error leaves the caller with
  the old state, exactly as the Python setters mutate `self` only
  after all validation/lookups have succeeded.
-/

namespace Goemon

/-- The `links` dict carried by file entries that already exist remotely
(`file['links']` in `api.py`): the remote reference with its download and
upload locations. -/
structure Links where
  download : String
  upload : String
  deriving Repr, DecidableEq

/-- The `data.attributes` dict of one file entry of `obj['files']`. -/
structure FileAttrs where
  hashSHA256 : String
  size : Nat
  lastModified : Int
  name : String
  type : String
  importType : String
  preload : Bool
  priority : Int
  deriving Repr, DecidableEq

/-- One element of `obj['files']`: outer `type` tag, `data.attributes`,
and the optional remote reference (`links`), absent on freshly minted
entries. -/
structure FileRecord where
  entryType : String
  attrs : FileAttrs
  links : Option Links
  deriving Repr, DecidableEq

/-- One user-supplied file descriptor, as loaded from the `.files.yml`
listing: exactly the five keys `Task._validate_file` requires
(string `name`, string `type`, string `importType`, boolean `preload`,
integer `priority`). -/
structure FileDescriptor where
  name : String
  type : String
  importType : String
  preload : Bool
  priority : Int
  deriving Repr, DecidableEq

/-- One element of a parameter list (`obj['param']`): string `name`,
string `value`, per `Task._validate_param_field`. -/
structure ParamField where
  name : String
  value : String
  deriving Repr, DecidableEq

/-- One element of a parameter-schema list (`obj['paramschema']`):
string `name` plus a `type` string checked by
`Task._validate_paramschema_field` against a fixed enum. -/
structure ParamSchemaField where
  name : String
  type : String
  deriving Repr, DecidableEq

/-- A pending transfer: `(name, contentHash, localPath)`, one element of
`obj['files_data']`. -/
abbrev Transfer := String × String × String

/-- The pure view of the local scratch file system: the bytes backing a
path and its `os.path.getmtime(path) * 1000` value (already scaled to
integer milliseconds). `os.path.getsize` is the length of the bytes. -/
structure FS where
  contents : String → List Nat
  mtimeMillis : String → Int

/-- Python exceptions raised by the modelled code: `ValueError` (with
its message discarded up to the offending description) and
`LookupError` (Python's `IndexError` is a `LookupError`). -/
inductive Err where
  | valueError : String → Err
  | lookupError : Err
  deriving Repr, DecidableEq

/-- The change-tracking dict `self.changed`: one flag per key ever
written by a setter. (`'meta'` itself is never written — the meta
setter marks the six sub-keys.) -/
structure Changed where
  description : Bool := false
  script : Bool := false
  param : Bool := false
  paramschema : Bool := false
  files : Bool := false
  publicFlag : Bool := false
  importable : Bool := false
  distributable : Bool := false
  title : Bool := false
  creatorLogType : Bool := false
  authorLogType : Bool := false
  deriving Repr, DecidableEq

/-- The task state `self.obj` (each key optional: absent keys model
missing dict entries) together with `self.changed`.
`param`/`paramschema` store the loaded YAML value, which may itself be
`None` (hence the inner `Option`). -/
structure Task where
  description : Option String := none
  script : Option String := none
  param : Option (Option (List ParamField)) := none
  paramschema : Option (Option (List ParamSchemaField)) := none
  files : Option (List FileRecord) := none
  files_data : Option (List Transfer) := none
  publicFlag : Option Bool := none
  importable : Option Bool := none
  distributable : Option Bool := none
  title : Option String := none
  creatorLogType : Option String := none
  authorLogType : Option String := none
  changed : Changed := {}
  deriving Repr, DecidableEq

/-! ## Meta accessors (`Task.meta` property, `api.py` lines 40-62) -/

/-- The composite metadata value: all six sub-keys, fully populated. -/
structure MetaObj where
  publicFlag : Bool
  importable : Bool
  distributable : Bool
  creatorLogType : String
  authorLogType : String
  title : String
  deriving Repr, DecidableEq

/-- A user-supplied metadata value (the result of `yaml.load` in the
meta setter): any sub-key may be missing. -/
structure MetaIn where
  publicFlag : Option Bool := none
  importable : Option Bool := none
  distributable : Option Bool := none
  creatorLogType : Option String := none
  authorLogType : Option String := none
  title : Option String := none
  deriving Repr, DecidableEq

/-- `Task.meta` getter: every boolean sub-key defaults to `False`,
`creatorLogType`/`authorLogType` default to `'none'`, `title` defaults
to `''` (the structured object handed to `yaml.dump`). -/
def Task.getMeta (t : Task) : MetaObj :=
  { publicFlag := t.publicFlag.getD false
    importable := t.importable.getD false
    distributable := t.distributable.getD false
    creatorLogType := t.creatorLogType.getD "none"
    authorLogType := t.authorLogType.getD "none"
    title := t.title.getD "" }

/-- `Task.meta` setter: re-derives every sub-key from the supplied
value with the same defaults and marks each sub-key changed. -/
def Task.setMeta (t : Task) (v : MetaIn) : Task :=
  { t with
    publicFlag := some (v.publicFlag.getD false)
    importable := some (v.importable.getD false)
    distributable := some (v.distributable.getD false)
    creatorLogType := some (v.creatorLogType.getD "none")
    authorLogType := some (v.authorLogType.getD "none")
    title := some (v.title.getD "")
    changed := { t.changed with
      publicFlag := true, importable := true, distributable := true
      creatorLogType := true, authorLogType := true, title := true } }

/-! ## Scalar and list field accessors (`api.py` lines 64-102) -/

/-- `Task.description` getter: `self.obj.get('description', '')`. -/
def Task.getDescription (t : Task) : String := t.description.getD ""

/-- `Task.description` setter. -/
def Task.setDescription (t : Task) (v : String) : Task :=
  { t with description := some v, changed := { t.changed with description := true } }

/-- `Task.script` getter: `self.obj.get('script', '')`. -/
def Task.getScript (t : Task) : String := t.script.getD ""

/-- `Task.script` setter. -/
def Task.setScript (t : Task) (v : String) : Task :=
  { t with script := some v, changed := { t.changed with script := true } }

/-- `Task._validate_param`: `None` is allowed; a list must have every
element carrying a string `name` and string `value` — satisfied by
construction for typed `ParamField` elements. -/
def validate_param (_ : Option (List ParamField)) : Except Err Unit :=
  Except.ok ()

/-- The fixed enum of `Task._validate_paramschema_field`. -/
def schemaTypes : List String :=
  ["string", "integer", "number", "file", "boolean", "url"]

/-- `Task._validate_paramschema_field`: requires `type` drawn from
`schemaTypes` (the string `name` requirement holds by typing). -/
def validate_paramschema_field (elem : ParamSchemaField) : Except Err Unit :=
  if elem.type ∈ schemaTypes then Except.ok ()
  else Except.error (Err.valueError ("unexpected type: " ++ elem.type))

/-- The `for p in paramschema` validation loop: elements are validated
in order, the first bad one raising. -/
def validate_paramschema_list : List ParamSchemaField → Except Err Unit
  | [] => Except.ok ()
  | p :: ps =>
    match validate_paramschema_field p with
    | Except.error e => Except.error e
    | Except.ok () => validate_paramschema_list ps

/-- `Task._validate_paramschema`: `None` is allowed; a list has each
element validated in order. -/
def validate_paramschema : Option (List ParamSchemaField) → Except Err Unit
  | none => Except.ok ()
  | some ps => validate_paramschema_list ps

/-- `Task.param` getter, structurally: `self.obj['param']` when present
and non-`None`, else the empty form (`''` after `yaml.dump`). -/
def Task.getParam (t : Task) : List ParamField :=
  match t.param with
  | some (some p) => p
  | _ => []

/-- `Task.param` setter: validate, then store and mark changed. -/
def Task.setParam (t : Task) (v : Option (List ParamField)) : Except Err Task :=
  match validate_param v with
  | Except.error e => Except.error e
  | Except.ok () =>
    Except.ok { t with param := some v, changed := { t.changed with param := true } }

/-- `Task.paramschema` getter, structurally. -/
def Task.getParamschema (t : Task) : List ParamSchemaField :=
  match t.paramschema with
  | some (some p) => p
  | _ => []

/-- `Task.paramschema` setter: validate the whole list before any state
change; on success store it and mark `paramschema` changed. -/
def Task.setParamschema (t : Task) (v : Option (List ParamSchemaField)) :
    Except Err Task :=
  match validate_paramschema v with
  | Except.error e => Except.error e
  | Except.ok () =>
    Except.ok { t with paramschema := some v, changed := { t.changed with paramschema := true } }

/-! ## The file-set reconciler (`Task.files` setter, `api.py` lines 112-149) -/

/-- `os.path.join(d, f)` for the paths occurring here. -/
def joinPath (d f : String) : String := d ++ "/" ++ f

/-- The local-file lookup
`[os.path.join(d, f) for d, f in files_path if f == name][0]`:
the first pair of `files_path` whose second component equals `name`,
joined; `none` models the `IndexError` of `[0]` on an empty list. -/
def lookupPath (files_path : List (String × String)) (name : String) :
    Option String :=
  (files_path.filter (fun df => df.2 = name)).head?.map
    (fun df => joinPath df.1 df.2)

/-- `Task._get_file_attr`: the five editable attributes of an entry, as
exported by the `files` getter. -/
def get_file_attr (f : FileRecord) : FileDescriptor :=
  { name := f.attrs.name
    type := f.attrs.type
    importType := f.attrs.importType
    preload := f.attrs.preload
    priority := f.attrs.priority }

/-- `newfile['data']['attributes'].update(file)`: overlay the
descriptor's five keys onto a deep copy of the matched old entry,
leaving `hashSHA256`, `size`, `lastModified` and the entry's `links`
untouched. -/
def overlayDescriptor (old : FileRecord) (d : FileDescriptor) : FileRecord :=
  { old with attrs := { old.attrs with
      name := d.name, type := d.type, importType := d.importType
      preload := d.preload, priority := d.priority } }

/-- The freshly minted entry of a new/changed file: computed hash, size
and last-modified timestamp, the descriptor's five keys, outer
`type: 'files'`, and no `links`. -/
def mintEntry (fs : FS) (d : FileDescriptor) (filepath hash : String) :
    FileRecord :=
  { entryType := "files"
    attrs :=
      { hashSHA256 := hash
        size := (fs.contents filepath).length
        lastModified := fs.mtimeMillis filepath
        name := d.name, type := d.type, importType := d.importType
        preload := d.preload, priority := d.priority }
    links := none }

/-- The search
`[f for f in oldfiles if f..name == file['name'] and f..hashSHA256 == hash]`,
taking element `[0]` when non-empty. -/
def findMatch (oldfiles : List FileRecord) (name hash : String) :
    Option FileRecord :=
  (oldfiles.filter
    (fun f => f.attrs.name = name ∧ f.attrs.hashSHA256 = hash)).head?

/-- One iteration of the reconciliation loop for descriptor `d`
(validation of `d` holds by typing): resolve the backing local file,
hash its bytes, and either clone-and-overlay a (name, hash)-matched old
entry (no transfer) or mint a new entry plus one transfer tuple. -/
def processFile (h : List Nat → String) (fs : FS)
    (oldfiles : List FileRecord) (files_path : List (String × String))
    (d : FileDescriptor) : Except Err (FileRecord × Option Transfer) :=
  match lookupPath files_path d.name with
  | none => Except.error Err.lookupError
  | some filepath =>
    let hash := h (fs.contents filepath)
    match findMatch oldfiles d.name hash with
    | some old => Except.ok (overlayDescriptor old d, none)
    | none => Except.ok (mintEntry fs d filepath hash,
        some (d.name, hash, filepath))

/-- The reconciliation loop over all descriptors, accumulating
`newfiles` and `newdata_files` in order; the first failing descriptor
aborts the whole assignment with no state change. -/
def reconcile (h : List Nat → String) (fs : FS)
    (oldfiles : List FileRecord) (files_path : List (String × String)) :
    List FileDescriptor → Except Err (List FileRecord × List Transfer)
  | [] => Except.ok ([], [])
  | d :: ds =>
    match processFile h fs oldfiles files_path d with
    | Except.error e => Except.error e
    | Except.ok (nf, tr?) =>
      match reconcile h fs oldfiles files_path ds with
      | Except.error e => Except.error e
      | Except.ok (nfs, trs) =>
        Except.ok (nf :: nfs,
          match tr? with
          | some tr => tr :: trs
          | none => trs)

/-- The transfer tuple contributed by one descriptor: `some` exactly
when the descriptor resolves to a local file whose (name, hash) pair
matches no entry of `oldfiles`. -/
def transferOf (h : List Nat → String) (fs : FS)
    (oldfiles : List FileRecord) (files_path : List (String × String))
    (d : FileDescriptor) : Option Transfer :=
  match processFile h fs oldfiles files_path d with
  | Except.ok (_, tr?) => tr?
  | Except.error _ => none

/-- `Task.files` setter: reconcile the supplied descriptor list against
`self.obj.get('files', [])`, then replace `files`, `files_data` and
mark `files` changed — all three writes happen only after the loop has
fully succeeded. -/
def Task.setFiles (t : Task) (h : List Nat → String) (fs : FS)
    (descriptors : List FileDescriptor)
    (files_path : List (String × String)) : Except Err Task :=
  match reconcile h fs (t.files.getD []) files_path descriptors with
  | Except.error e => Except.error e
  | Except.ok (newfiles, newdata_files) =>
    Except.ok { t with
      files := some newfiles
      files_data := some newdata_files
      changed := { t.changed with files := true } }

/-- `Task.get_data_files`: `self.obj['files_data']` when present, else
`[]`. The method reads `self.obj` and performs no mutation. -/
def Task.get_data_files (t : Task) : List Transfer :=
  t.files_data.getD []

/-- Two successive calls of `Task.get_data_files` on the same task with
no intervening mutation: the method body does not write `self.obj`, so
the second call observes the same state as the first. -/
def Task.get_data_files_twice (t : Task) : List Transfer × List Transfer :=
  (t.get_data_files, t.get_data_files)

/-! ## Patch serialization (`Task.serialize_as_task`, `api.py` lines 151-161) -/

/-- The property names iterated by `serialize_as_task`:
`PROPERTIES + ['files'] + META_BOOLEAN_PROPERTIES +
META_STRING_OR_EMPTY_PROPERTIES + META_STRING_OR_NONE_PROPERTIES`. -/
inductive FieldName where
  | meta | description | script | param | paramschema | files
  | publicFlag | importable | distributable | title
  | creatorLogType | authorLogType
  deriving Repr, DecidableEq

/-- `all_properties`, in the exact iteration order of the Python code. -/
def allProperties : List FieldName :=
  [.meta, .description, .script, .param, .paramschema, .files,
   .publicFlag, .importable, .distributable, .title,
   .creatorLogType, .authorLogType]

/-- The wire key of each property (the Python dict key). -/
def fieldKey : FieldName → String
  | .meta => "meta"
  | .description => "description"
  | .script => "script"
  | .param => "param"
  | .paramschema => "paramschema"
  | .files => "files"
  | .publicFlag => "public"
  | .importable => "importable"
  | .distributable => "distributable"
  | .title => "title"
  | .creatorLogType => "creatorLogType"
  | .authorLogType => "authorLogType"

/-- A value stored at a top-level key of `self.obj`. -/
inductive Value where
  | vBool : Bool → Value
  | vStr : String → Value
  | vParams : Option (List ParamField) → Value
  | vSchema : Option (List ParamSchemaField) → Value
  | vFiles : List FileRecord → Value
  deriving Repr, DecidableEq

/-- `self.changed.get(prop, False)` for each serialized property
(`'meta'` never appears in `changed`, no setter writes it). -/
def Changed.get (c : Changed) : FieldName → Bool
  | .meta => false
  | .description => c.description
  | .script => c.script
  | .param => c.param
  | .paramschema => c.paramschema
  | .files => c.files
  | .publicFlag => c.publicFlag
  | .importable => c.importable
  | .distributable => c.distributable
  | .title => c.title
  | .creatorLogType => c.creatorLogType
  | .authorLogType => c.authorLogType

/-- `self.obj[prop]` as an optional `Value` (`none` models the key
being absent from the dict, where Python would raise `KeyError`).
`'meta'` is not a key of `self.obj`. -/
def Task.getProp (t : Task) : FieldName → Option Value
  | .meta => none
  | .description => t.description.map Value.vStr
  | .script => t.script.map Value.vStr
  | .param => t.param.map Value.vParams
  | .paramschema => t.paramschema.map Value.vSchema
  | .files => t.files.map Value.vFiles
  | .publicFlag => t.publicFlag.map Value.vBool
  | .importable => t.importable.map Value.vBool
  | .distributable => t.distributable.map Value.vBool
  | .title => t.title.map Value.vStr
  | .creatorLogType => t.creatorLogType.map Value.vStr
  | .authorLogType => t.authorLogType.map Value.vStr

/-- One iteration of the `serialize_as_task` loop: skip `'meta'`, skip
properties not marked changed, emit `data[prop] = self.obj[prop]` for
the rest; a changed property missing from `self.obj` is Python's
`KeyError`, modelled as `none`. -/
def serializeStep (t : Task) (prop : FieldName)
    (acc : Option (List (String × Value))) : Option (List (String × Value)) :=
  match acc with
  | none => none
  | some rest =>
    if prop = FieldName.meta then some rest
    else if t.changed.get prop then
      match t.getProp prop with
      | some v => some ((fieldKey prop, v) :: rest)
      | none => none
    else some rest

/-- `Task.serialize_as_task`: walk `all_properties` in order and build
the patch dict (as an ordered association list). -/
def Task.serialize_as_task (t : Task) : Option (List (String × Value)) :=
  allProperties.foldr (serializeStep t) (some [])

/-- The patch entry contributed by one property: `some` exactly when
the property is serialized (not `'meta'`, marked changed, present). -/
def serializeEmit (t : Task) (prop : FieldName) : Option (String × Value) :=
  if prop = FieldName.meta then none
  else if t.changed.get prop then
    (t.getProp prop).map (fun v => (fieldKey prop, v))
  else none

/-! ## Concrete instances used by witnesses and counterexamples -/

/-- A concrete, injective-on-the-inputs-used hash function standing in
for SHA-256 hex digests. -/
def hashC (bs : List Nat) : String := "h" ++ toString bs

/-- A concrete scratch file system holding two files. -/
def fsC : FS :=
  { contents := fun p =>
      if p = "d/x.txt" then [1, 2] else if p = "d/y.txt" then [3] else []
    mtimeMillis := fun p => if p = "d/x.txt" then 100 else 200 }

/-- Concrete `files_path` local-file locations. -/
def fpC : List (String × String) := [("d", "x.txt"), ("d", "y.txt")]

/-- A descriptor for `x.txt` with edited metadata. -/
def descX : FileDescriptor :=
  { name := "x.txt", type := "data", importType := "copy",
    preload := false, priority := 1 }

/-- A second descriptor for `x.txt`, differing only in priority. -/
def descX2 : FileDescriptor := { descX with priority := 5 }

/-- A descriptor for the new file `y.txt`. -/
def descY : FileDescriptor :=
  { name := "y.txt", type := "data", importType := "copy",
    preload := true, priority := 2 }

/-- A descriptor whose name has no backing local file in `fpC`. -/
def descZ : FileDescriptor :=
  { name := "z.txt", type := "data", importType := "copy",
    preload := false, priority := 3 }

/-- A previous remote entry for `x.txt` whose hash matches the current
bytes of `d/x.txt`. -/
def oldX : FileRecord :=
  { entryType := "files"
    attrs := { hashSHA256 := hashC [1, 2], size := 2, lastModified := 77,
               name := "x.txt", type := "oldtype", importType := "oldimp",
               preload := true, priority := 9 }
    links := some { download := "dl", upload := "ul" } }

/-- A concrete task holding the previous fileset `[oldX]`. -/
def taskC : Task := { files := some [oldX] }

/-- The task produced by replacing `taskC`'s fileset with
`[descX, descY]` (the `Except.ok` payload of that replacement). -/
def taskCout : Task :=
  match Task.setFiles taskC hashC fsC [descX, descY] fpC with
  | Except.ok t => t
  | Except.error _ => taskC

/-- The task produced by replacing `taskC`'s fileset with two
descriptors that share the name `x.txt`. -/
def taskCdup : Task :=
  match Task.setFiles taskC hashC fsC [descX, descX2] fpC with
  | Except.ok t => t
  | Except.error _ => taskC

/-- A concrete task with one dirty scalar field (`description`). -/
def taskDirty : Task := Task.setDescription taskC "new"

/-- A concrete user-supplied metadata value with two sub-keys present
and four missing. -/
def metaInC : MetaIn := { publicFlag := some true, title := some "T" }

/-- A concrete parameter-schema element with `type: "object"`. -/
def badSchemaElem : ParamSchemaField := { name := "p", type := "object" }

/-- A concrete valid parameter-schema element. -/
def goodSchemaElem : ParamSchemaField := { name := "p", type := "string" }

/-! ## Helper lemmas about the reconciler -/

theorem findMatch_eq_some {oldfiles : List FileRecord} {name hash : String}
    {m : FileRecord} (hm : findMatch oldfiles name hash = some m) :
    m ∈ oldfiles ∧ m.attrs.name = name ∧ m.attrs.hashSHA256 = hash := by
  unfold findMatch at hm
  have hmem : m ∈ oldfiles.filter
      (fun f => decide (f.attrs.name = name ∧ f.attrs.hashSHA256 = hash)) :=
    List.mem_of_mem_head? hm
  have := List.mem_filter.mp hmem
  simpa using this

theorem findMatch_isSome_of_mem {oldfiles : List FileRecord}
    {name hash : String} {e : FileRecord} (he : e ∈ oldfiles)
    (hn : e.attrs.name = name) (hh : e.attrs.hashSHA256 = hash) :
    ∃ m, findMatch oldfiles name hash = some m := by
  unfold findMatch
  have hmem : e ∈ oldfiles.filter
      (fun f => decide (f.attrs.name = name ∧ f.attrs.hashSHA256 = hash)) :=
    List.mem_filter.mpr ⟨he, by simp [hn, hh]⟩
  cases hfl : oldfiles.filter
      (fun f => decide (f.attrs.name = name ∧ f.attrs.hashSHA256 = hash)) with
  | nil => rw [hfl] at hmem; cases hmem
  | cons x xs => exact ⟨x, by simp⟩

theorem transferOf_eq_some {h : List Nat → String} {fs : FS}
    {oldfiles : List FileRecord} {fp : List (String × String)}
    {d : FileDescriptor} {tr : Transfer}
    (htr : transferOf h fs oldfiles fp d = some tr) :
    ∃ p, lookupPath fp d.name = some p ∧
      findMatch oldfiles d.name (h (fs.contents p)) = none ∧
      tr = (d.name, h (fs.contents p), p) := by
  cases hlp : lookupPath fp d.name with
  | none => simp [transferOf, processFile, hlp] at htr
  | some p =>
    cases hfm : findMatch oldfiles d.name (h (fs.contents p)) with
    | some m => simp [transferOf, processFile, hlp, hfm] at htr
    | none =>
      simp [transferOf, processFile, hlp, hfm] at htr
      exact ⟨p, rfl, hfm, htr.symm⟩

/-- Full characterization of a successful reconciliation run: one
output entry per descriptor (overlaid clone on a (name, hash) match,
fresh mint otherwise) and one transfer per missing descriptor. -/
theorem reconcile_ok_spec {h : List Nat → String} {fs : FS}
    {oldfiles : List FileRecord} {fp : List (String × String)} :
    ∀ {ds : List FileDescriptor} {nfs : List FileRecord} {trs : List Transfer},
    reconcile h fs oldfiles fp ds = Except.ok (nfs, trs) →
    nfs.length = ds.length ∧
    trs = ds.filterMap (transferOf h fs oldfiles fp) ∧
    ∀ i, (hi : i < ds.length) → ∃ p,
      lookupPath fp ds[i].name = some p ∧
      ((∃ m, findMatch oldfiles ds[i].name (h (fs.contents p)) = some m ∧
          nfs[i]? = some (overlayDescriptor m ds[i])) ∨
       (findMatch oldfiles ds[i].name (h (fs.contents p)) = none ∧
          nfs[i]? = some (mintEntry fs ds[i] p (h (fs.contents p))))) := by
  intro ds
  induction ds with
  | nil =>
    intro nfs trs hok
    simp [reconcile] at hok
    obtain ⟨h1, h2⟩ := hok
    subst h1; subst h2
    exact ⟨rfl, rfl, fun i hi => absurd hi (by simp)⟩
  | cons d ds ih =>
    intro nfs trs hok
    cases hlp : lookupPath fp d.name with
    | none => simp [reconcile, processFile, hlp] at hok
    | some p =>
      cases hrc : reconcile h fs oldfiles fp ds with
      | error e =>
        cases hfm : findMatch oldfiles d.name (h (fs.contents p)) with
        | some m => simp [reconcile, processFile, hlp, hfm, hrc] at hok
        | none => simp [reconcile, processFile, hlp, hfm, hrc] at hok
      | ok pr =>
        obtain ⟨nfs', trs'⟩ := pr
        obtain ⟨hlen, htrs, hidx⟩ := ih hrc
        cases hfm : findMatch oldfiles d.name (h (fs.contents p)) with
        | some m =>
          simp [reconcile, processFile, hlp, hfm, hrc] at hok
          obtain ⟨h1, h2⟩ := hok
          subst h1; subst h2
          refine ⟨by simp [hlen], ?_, ?_⟩
          · have : transferOf h fs oldfiles fp d = none := by
              simp [transferOf, processFile, hlp, hfm]
            simp [List.filterMap_cons, this, htrs]
          · intro i hi
            cases i with
            | zero => exact ⟨p, hlp, Or.inl ⟨m, hfm, by simp⟩⟩
            | succ j =>
              have hj : j < ds.length := by simpa using hi
              obtain ⟨q, hq, hcase⟩ := hidx j hj
              exact ⟨q, by simpa using hq, by simpa using hcase⟩
        | none =>
          simp [reconcile, processFile, hlp, hfm, hrc] at hok
          obtain ⟨h1, h2⟩ := hok
          subst h1; subst h2
          refine ⟨by simp [hlen], ?_, ?_⟩
          · have : transferOf h fs oldfiles fp d =
                some (d.name, h (fs.contents p), p) := by
              simp [transferOf, processFile, hlp, hfm]
            simp [List.filterMap_cons, this, htrs]
          · intro i hi
            cases i with
            | zero => exact ⟨p, hlp, Or.inr ⟨hfm, by simp⟩⟩
            | succ j =>
              have hj : j < ds.length := by simpa using hi
              obtain ⟨q, hq, hcase⟩ := hidx j hj
              exact ⟨q, by simpa using hq, by simpa using hcase⟩

/-- Reconciliation succeeds as soon as every descriptor's name is
backed by a local file. -/
theorem reconcile_ok_of_backed {h : List Nat → String} {fs : FS}
    {oldfiles : List FileRecord} {fp : List (String × String)} :
    ∀ {ds : List FileDescriptor},
    (∀ d ∈ ds, (lookupPath fp d.name).isSome) →
    ∃ nfs trs, reconcile h fs oldfiles fp ds = Except.ok (nfs, trs) := by
  intro ds
  induction ds with
  | nil => exact fun _ => ⟨[], [], rfl⟩
  | cons d ds ih =>
    intro hall
    obtain ⟨p, hlp⟩ := Option.isSome_iff_exists.mp (hall d (by simp))
    obtain ⟨nfs, trs, hrc⟩ := ih (fun d' hd' => hall d' (by simp [hd']))
    cases hfm : findMatch oldfiles d.name (h (fs.contents p)) with
    | some m =>
      exact ⟨overlayDescriptor m d :: nfs, trs,
        by simp [reconcile, processFile, hlp, hfm, hrc]⟩
    | none =>
      exact ⟨mintEntry fs d p (h (fs.contents p)) :: nfs,
        (d.name, h (fs.contents p), p) :: trs,
        by simp [reconcile, processFile, hlp, hfm, hrc]⟩

/-- Reconciliation against a base in which every descriptor already has
a (name, hash) match succeeds with an empty transfer list. -/
theorem reconcile_all_hit {h : List Nat → String} {fs : FS}
    {base : List FileRecord} {fp : List (String × String)} :
    ∀ {ds : List FileDescriptor},
    (∀ d ∈ ds, ∃ p, lookupPath fp d.name = some p ∧
      ∃ m, findMatch base d.name (h (fs.contents p)) = some m) →
    ∃ nfs, reconcile h fs base fp ds = Except.ok (nfs, []) := by
  intro ds
  induction ds with
  | nil => exact fun _ => ⟨[], rfl⟩
  | cons d ds ih =>
    intro hall
    obtain ⟨p, hlp, m, hfm⟩ := hall d (by simp)
    obtain ⟨nfs, hrc⟩ := ih (fun d' hd' => hall d' (by simp [hd']))
    exact ⟨overlayDescriptor m d :: nfs,
      by simp [reconcile, processFile, hlp, hfm, hrc]⟩

/-- Reconciliation raises Python's `IndexError` (a `LookupError`) as
soon as some descriptor's name has no backing local file. -/
theorem reconcile_error_of_missing {h : List Nat → String} {fs : FS}
    {oldfiles : List FileRecord} {fp : List (String × String)} :
    ∀ {ds : List FileDescriptor},
    (∃ d ∈ ds, lookupPath fp d.name = none) →
    reconcile h fs oldfiles fp ds = Except.error Err.lookupError := by
  intro ds
  induction ds with
  | nil => rintro ⟨d, hd, -⟩; cases hd
  | cons d ds ih =>
    rintro ⟨d', hd', hnone⟩
    cases hlp : lookupPath fp d.name with
    | none => simp [reconcile, processFile, hlp]
    | some p =>
      have hmem : d' ∈ ds := by
        rcases List.mem_cons.mp hd' with h1 | h1
        · subst h1; rw [hlp] at hnone; cases hnone
        · exact h1
      have htail := ih ⟨d', hmem, hnone⟩
      cases hfm : findMatch oldfiles d.name (h (fs.contents p)) with
      | some m => simp [reconcile, processFile, hlp, hfm, htail]
      | none => simp [reconcile, processFile, hlp, hfm, htail]

/-- Unpacking a successful `Task.setFiles`: the reconciliation
succeeded and the three writes happened. -/
theorem setFiles_ok_elim {t : Task} {h : List Nat → String} {fs : FS}
    {ds : List FileDescriptor} {fp : List (String × String)} {t' : Task}
    (hok : t.setFiles h fs ds fp = Except.ok t') :
    ∃ nfs trs, reconcile h fs (t.files.getD []) fp ds = Except.ok (nfs, trs) ∧
      t' = { t with
        files := some nfs
        files_data := some trs
        changed := { t.changed with files := true } } := by
  unfold Task.setFiles at hok
  cases hrc : reconcile h fs (t.files.getD []) fp ds with
  | error e => rw [hrc] at hok; cases hok
  | ok pr =>
    obtain ⟨nfs, trs⟩ := pr
    rw [hrc] at hok
    simp at hok
    exact ⟨nfs, trs, rfl, hok.symm⟩

/-- Claim C1: for every fileset replacement, a supplied descriptor
whose name is backed by a local file whose bytes hash to the same
`contentHash` as a previous entry with the same name yields, at its
position, that previous entry cloned with only the descriptor's
editable attributes (type/importType/preload/priority and name)
overlaid — its `remoteRef` (`links`), size and timestamp unchanged —
and no transfer tuple is produced for that descriptor. -/
theorem reuse_matched_entry_preserves_identity
    {t : Task} {h : List Nat → String} {fs : FS}
    {ds : List FileDescriptor} {fp : List (String × String)} {t' : Task}
    (hok : t.setFiles h fs ds fp = Except.ok t')
    {i : Nat} (hi : i < ds.length) {p : String}
    (hp : lookupPath fp ds[i].name = some p)
    {m : FileRecord}
    (hm : findMatch (t.files.getD []) ds[i].name (h (fs.contents p)) = some m) :
    (t'.files.getD [])[i]? = some (overlayDescriptor m ds[i]) ∧
    (overlayDescriptor m ds[i]).links = m.links ∧
    (overlayDescriptor m ds[i]).attrs.hashSHA256 = m.attrs.hashSHA256 ∧
    (overlayDescriptor m ds[i]).attrs.size = m.attrs.size ∧
    (overlayDescriptor m ds[i]).attrs.lastModified = m.attrs.lastModified ∧
    (overlayDescriptor m ds[i]).attrs.name = ds[i].name ∧
    (overlayDescriptor m ds[i]).attrs.type = ds[i].type ∧
    (overlayDescriptor m ds[i]).attrs.importType = ds[i].importType ∧
    (overlayDescriptor m ds[i]).attrs.preload = ds[i].preload ∧
    (overlayDescriptor m ds[i]).attrs.priority = ds[i].priority ∧
    (ds[i].name, h (fs.contents p), p) ∉ t'.get_data_files := by
  obtain ⟨nfs, trs, hrc, ht'⟩ := setFiles_ok_elim hok
  obtain ⟨hlen, htrs, hidx⟩ := reconcile_ok_spec hrc
  obtain ⟨q, hq, hcase⟩ := hidx i hi
  have hqp : p = q := by rw [hq] at hp; exact (Option.some.inj hp).symm
  subst hqp
  have hentry : nfs[i]? = some (overlayDescriptor m ds[i]) := by
    rcases hcase with ⟨m', hfm', he⟩ | ⟨hnone, -⟩
    · rw [hm] at hfm'
      have hm'm : m' = m := (Option.some.inj hfm').symm
      subst hm'm
      exact he
    · rw [hm] at hnone; cases hnone
  subst ht'
  refine ⟨by simpa using hentry, rfl, rfl, rfl, rfl, rfl, rfl, rfl, rfl, rfl, ?_⟩
  intro hmem
  simp only [Task.get_data_files, Option.getD_some] at hmem
  rw [htrs] at hmem
  obtain ⟨d', hd'mem, htr'⟩ := List.mem_filterMap.mp hmem
  obtain ⟨p'', hlp'', hfm'', heq⟩ := transferOf_eq_some htr'
  have h1 : ds[i].name = d'.name := congrArg (fun x : Transfer => x.1) heq
  have h2 : p = p'' := congrArg (fun x : Transfer => x.2.2) heq
  rw [← h1, ← h2] at hfm''
  rw [hm] at hfm''
  cases hfm''

/-- Witness for C1 at a concrete replacement: `descX` names `x.txt`,
whose bytes still hash to `oldX`'s hash, so entry 0 of the result is
`oldX` with the new metadata and no transfer mentions it. -/
theorem reuse_matched_entry_preserves_identity_witness :
    (taskCout.files.getD [])[0]? = some (overlayDescriptor oldX descX) ∧
    (overlayDescriptor oldX descX).links = oldX.links ∧
    (overlayDescriptor oldX descX).attrs.hashSHA256 = oldX.attrs.hashSHA256 ∧
    (overlayDescriptor oldX descX).attrs.size = oldX.attrs.size ∧
    (overlayDescriptor oldX descX).attrs.lastModified = oldX.attrs.lastModified ∧
    (overlayDescriptor oldX descX).attrs.name = descX.name ∧
    (overlayDescriptor oldX descX).attrs.type = descX.type ∧
    (overlayDescriptor oldX descX).attrs.importType = descX.importType ∧
    (overlayDescriptor oldX descX).attrs.preload = descX.preload ∧
    (overlayDescriptor oldX descX).attrs.priority = descX.priority ∧
    (descX.name, hashC (fsC.contents "d/x.txt"), "d/x.txt") ∉
      taskCout.get_data_files := by
  have hok : Task.setFiles taskC hashC fsC [descX, descY] fpC =
      Except.ok taskCout := rfl
  exact reuse_matched_entry_preserves_identity hok
    (i := 0) (p := "d/x.txt") (m := oldX) (by decide) (by decide) (by decide)

/-- Claim C2: a supplied descriptor with no previous entry matching on
both name and contentHash yields, at its position, a freshly minted
entry carrying the computed hash, freshly computed size and
last-modified timestamp, and no `remoteRef` (`links`); the transfer
list consists of exactly one tuple per such descriptor, and this
descriptor contributes `(name, contentHash, localPath)`. -/
theorem new_entry_minted_with_transfer
    {t : Task} {h : List Nat → String} {fs : FS}
    {ds : List FileDescriptor} {fp : List (String × String)} {t' : Task}
    (hok : t.setFiles h fs ds fp = Except.ok t')
    {i : Nat} (hi : i < ds.length) {p : String}
    (hp : lookupPath fp ds[i].name = some p)
    (hm : findMatch (t.files.getD []) ds[i].name (h (fs.contents p)) = none) :
    (t'.files.getD [])[i]? = some (mintEntry fs ds[i] p (h (fs.contents p))) ∧
    (mintEntry fs ds[i] p (h (fs.contents p))).attrs.hashSHA256 =
      h (fs.contents p) ∧
    (mintEntry fs ds[i] p (h (fs.contents p))).attrs.size =
      (fs.contents p).length ∧
    (mintEntry fs ds[i] p (h (fs.contents p))).attrs.lastModified =
      fs.mtimeMillis p ∧
    (mintEntry fs ds[i] p (h (fs.contents p))).links = none ∧
    t'.get_data_files = ds.filterMap (transferOf h fs (t.files.getD []) fp) ∧
    transferOf h fs (t.files.getD []) fp ds[i] =
      some (ds[i].name, h (fs.contents p), p) ∧
    (ds[i].name, h (fs.contents p), p) ∈ t'.get_data_files := by
  obtain ⟨nfs, trs, hrc, ht'⟩ := setFiles_ok_elim hok
  obtain ⟨hlen, htrs, hidx⟩ := reconcile_ok_spec hrc
  obtain ⟨q, hq, hcase⟩ := hidx i hi
  have hqp : p = q := by rw [hq] at hp; exact (Option.some.inj hp).symm
  subst hqp
  have hentry : nfs[i]? = some (mintEntry fs ds[i] p (h (fs.contents p))) := by
    rcases hcase with ⟨m', hfm', -⟩ | ⟨-, he⟩
    · rw [hm] at hfm'; cases hfm'
    · exact he
  have htro : transferOf h fs (t.files.getD []) fp ds[i] =
      some (ds[i].name, h (fs.contents p), p) := by
    simp [transferOf, processFile, hp, hm]
  subst ht'
  refine ⟨by simpa using hentry, rfl, rfl, rfl, rfl, by simpa using htrs, htro, ?_⟩
  simp only [Task.get_data_files, Option.getD_some]
  rw [htrs]
  exact List.mem_filterMap.mpr ⟨ds[i], List.getElem_mem hi, htro⟩

/-- Witness for C2 at a concrete replacement: `descY` names the new
file `y.txt`; entry 1 of the result is freshly minted and the single
transfer tuple names it. -/
theorem new_entry_minted_with_transfer_witness :
    (taskCout.files.getD [])[1]? =
      some (mintEntry fsC descY "d/y.txt" (hashC (fsC.contents "d/y.txt"))) ∧
    (mintEntry fsC descY "d/y.txt" (hashC (fsC.contents "d/y.txt"))).attrs.hashSHA256 =
      hashC (fsC.contents "d/y.txt") ∧
    (mintEntry fsC descY "d/y.txt" (hashC (fsC.contents "d/y.txt"))).attrs.size =
      (fsC.contents "d/y.txt").length ∧
    (mintEntry fsC descY "d/y.txt" (hashC (fsC.contents "d/y.txt"))).attrs.lastModified =
      fsC.mtimeMillis "d/y.txt" ∧
    (mintEntry fsC descY "d/y.txt" (hashC (fsC.contents "d/y.txt"))).links = none ∧
    taskCout.get_data_files =
      [descX, descY].filterMap (transferOf hashC fsC (taskC.files.getD []) fpC) ∧
    transferOf hashC fsC (taskC.files.getD []) fpC descY =
      some (descY.name, hashC (fsC.contents "d/y.txt"), "d/y.txt") ∧
    (descY.name, hashC (fsC.contents "d/y.txt"), "d/y.txt") ∈
      taskCout.get_data_files := by
  have hok : Task.setFiles taskC hashC fsC [descX, descY] fpC =
      Except.ok taskCout := rfl
  exact new_entry_minted_with_transfer hok
    (i := 1) (p := "d/y.txt") (by decide) (by decide) (by decide)

/-- Every entry produced by a successful reconciliation carries its
descriptor's name and the hash of the backing local file's bytes. -/
theorem reconcile_output_matches {t : Task} {h : List Nat → String}
    {fs : FS} {ds : List FileDescriptor} {fp : List (String × String)}
    {nfs : List FileRecord} {trs : List Transfer}
    (hrc : reconcile h fs (t.files.getD []) fp ds = Except.ok (nfs, trs)) :
    ∀ d ∈ ds, ∃ p, lookupPath fp d.name = some p ∧
      ∃ e ∈ nfs, e.attrs.name = d.name ∧
        e.attrs.hashSHA256 = h (fs.contents p) := by
  obtain ⟨hlen, htrs, hidx⟩ := reconcile_ok_spec hrc
  intro d hd
  obtain ⟨i, hi, hieq⟩ := List.mem_iff_getElem.mp hd
  obtain ⟨p, hq, hcase⟩ := hidx i hi
  refine ⟨p, by rw [← hieq]; exact hq, ?_⟩
  rcases hcase with ⟨m, hfm, he⟩ | ⟨hnone, he⟩
  · obtain ⟨hlt, hget⟩ := List.getElem?_eq_some.mp he
    obtain ⟨-, -, hmh⟩ := findMatch_eq_some hfm
    refine ⟨nfs[i], List.getElem_mem hlt, ?_, ?_⟩
    · rw [hget]; simp [overlayDescriptor, ← hieq]
    · rw [hget]; simpa [overlayDescriptor] using hmh
  · obtain ⟨hlt, hget⟩ := List.getElem?_eq_some.mp he
    refine ⟨nfs[i], List.getElem_mem hlt, ?_, ?_⟩
    · rw [hget]; simp [mintEntry, ← hieq]
    · rw [hget]; simp [mintEntry]

/-- Claim C3: reconciliation is idempotent with respect to transfers —
replaying the same descriptor set with unchanged local bytes against
the output of a replacement produces an empty transfer list. -/
theorem reconcile_idempotent_transfers
    {t : Task} {h : List Nat → String} {fs : FS}
    {ds : List FileDescriptor} {fp : List (String × String)} {t' : Task}
    (hok : t.setFiles h fs ds fp = Except.ok t') :
    ∃ t'', t'.setFiles h fs ds fp = Except.ok t'' ∧
      t''.get_data_files = [] := by
  obtain ⟨nfs, trs, hrc, ht'⟩ := setFiles_ok_elim hok
  have hall : ∀ d ∈ ds, ∃ p, lookupPath fp d.name = some p ∧
      ∃ m, findMatch nfs d.name (h (fs.contents p)) = some m := by
    intro d hd
    obtain ⟨p, hlp, e, hemem, hename, hehash⟩ :=
      reconcile_output_matches hrc d hd
    exact ⟨p, hlp, findMatch_isSome_of_mem hemem hename hehash⟩
  obtain ⟨nfs2, hrc2⟩ := reconcile_all_hit hall
  subst ht'
  let t2 : Task := { t with
    files := some nfs2
    files_data := some ([] : List Transfer)
    changed := { t.changed with files := true } }
  refine ⟨t2, ?_, rfl⟩
  simp [Task.setFiles, hrc2]

/-- Witness for C3: replaying `[descX, descY]` against the output of
the concrete replacement yields zero transfers. -/
theorem reconcile_idempotent_transfers_witness :
    ∃ t'', taskCout.setFiles hashC fsC [descX, descY] fpC =
      Except.ok t'' ∧ t''.get_data_files = [] := by
  have hok : Task.setFiles taskC hashC fsC [descX, descY] fpC =
      Except.ok taskCout := rfl
  exact reconcile_idempotent_transfers hok

/-- Counterexample to claim C5: after the concrete replacement (which
computed one pending transfer), a second call to `get_data_files`
returns the same non-empty list, not the empty list — the accessor does
not clear `files_data`. -/
theorem get_data_files_not_cleared_counterexample :
    Task.setFiles taskC hashC fsC [descX, descY] fpC =
      Except.ok taskCout ∧
    taskCout.get_data_files_twice.1 =
      [("y.txt", hashC [3], "d/y.txt")] ∧
    taskCout.get_data_files_twice.2 =
      [("y.txt", hashC [3], "d/y.txt")] ∧
    taskCout.get_data_files_twice.2 ≠ ([] : List Transfer) := by
  refine ⟨rfl, rfl, rfl, by decide⟩

/-- Claim C5 as amended: `get_data_files` returns the transfer tuples
computed by the last fileset replacement but does not clear them; a
second call before any further replacement returns the same list. -/
theorem get_data_files_returns_without_clearing
    {t : Task} {h : List Nat → String} {fs : FS}
    {ds : List FileDescriptor} {fp : List (String × String)} {t' : Task}
    (hok : t.setFiles h fs ds fp = Except.ok t') :
    t'.get_data_files =
      ds.filterMap (transferOf h fs (t.files.getD []) fp) ∧
    t'.get_data_files_twice = (t'.get_data_files, t'.get_data_files) := by
  obtain ⟨nfs, trs, hrc, ht'⟩ := setFiles_ok_elim hok
  obtain ⟨-, htrs, -⟩ := reconcile_ok_spec hrc
  subst ht'
  exact ⟨by simpa using htrs, rfl⟩

/-- Witness for the amended C5 at the concrete replacement. -/
theorem get_data_files_returns_without_clearing_witness :
    taskCout.get_data_files =
      [descX, descY].filterMap
        (transferOf hashC fsC (taskC.files.getD []) fpC) ∧
    taskCout.get_data_files_twice =
      (taskCout.get_data_files, taskCout.get_data_files) := by
  have hok : Task.setFiles taskC hashC fsC [descX, descY] fpC =
      Except.ok taskCout := rfl
  exact get_data_files_returns_without_clearing hok

/-- Counterexample to claim C6: two descriptors sharing the name
`x.txt`, each backed by a local file, raise no validation error — the
replacement succeeds and the resulting fileset holds two entries with
the same name. -/
theorem duplicate_names_no_error_counterexample :
    Task.setFiles taskC hashC fsC [descX, descX2] fpC =
      Except.ok taskCdup ∧
    taskCdup.files = some [overlayDescriptor oldX descX,
      overlayDescriptor oldX descX2] ∧
    (overlayDescriptor oldX descX).attrs.name =
      (overlayDescriptor oldX descX2).attrs.name := by
  exact ⟨rfl, rfl, rfl⟩

/-- Claim C6 as amended: duplicate names in the descriptor list are not
detected; whenever every descriptor's name is backed by a local file —
duplicates included — the replacement succeeds and produces one entry
per descriptor, entry `i` carrying descriptor `i`'s name. -/
theorem duplicate_names_accepted
    {t : Task} {h : List Nat → String} {fs : FS}
    {ds : List FileDescriptor} {fp : List (String × String)}
    (hall : ∀ d ∈ ds, (lookupPath fp d.name).isSome) :
    ∃ t', t.setFiles h fs ds fp = Except.ok t' ∧
      (t'.files.getD []).length = ds.length ∧
      ∀ i, (hi : i < ds.length) →
        ((t'.files.getD [])[i]?).map (fun e => e.attrs.name) =
          some ds[i].name := by
  obtain ⟨nfs, trs, hrc⟩ :=
    @reconcile_ok_of_backed h fs (t.files.getD []) fp ds hall
  obtain ⟨hlen, -, hidx⟩ := reconcile_ok_spec hrc
  let t2 : Task := { t with
    files := some nfs
    files_data := some trs
    changed := { t.changed with files := true } }
  refine ⟨t2, by simp [Task.setFiles, hrc], by simpa [t2] using hlen, ?_⟩
  intro i hi
  obtain ⟨p, hq, hcase⟩ := hidx i hi
  have : (t2.files.getD []) = nfs := rfl
  rw [this]
  rcases hcase with ⟨m, hfm, he⟩ | ⟨-, he⟩
  · rw [he]; simp [overlayDescriptor]
  · rw [he]; simp [mintEntry]

/-- Witness for the amended C6: the concrete duplicate-name replacement
succeeds with two entries both named `x.txt`. -/
theorem duplicate_names_accepted_witness :
    ∃ t', Task.setFiles taskC hashC fsC [descX, descX2] fpC =
        Except.ok t' ∧
      (t'.files.getD []).length = ([descX, descX2] : List FileDescriptor).length ∧
      ∀ i, (hi : i < ([descX, descX2] : List FileDescriptor).length) →
        ((t'.files.getD [])[i]?).map (fun e => e.attrs.name) =
          some ([descX, descX2] : List FileDescriptor)[i].name := by
  exact duplicate_names_accepted (by decide)

/-- Claim C8: a fileset replacement in which some descriptor's name has
no matching entry among the supplied local file locations fails with
Python's `IndexError` — a `LookupError` — and, the failure occurring
before any assignment to `self.obj`, the previously held fileset,
pending transfers and dirty markers are untouched. -/
theorem missing_local_file_raises_lookup_error
    {t : Task} {h : List Nat → String} {fs : FS}
    {ds : List FileDescriptor} {fp : List (String × String)}
    (hmiss : ∃ d ∈ ds, lookupPath fp d.name = none) :
    t.setFiles h fs ds fp = Except.error Err.lookupError := by
  unfold Task.setFiles
  rw [reconcile_error_of_missing hmiss]

/-- Witness for C8: `descZ` names `z.txt`, which has no backing local
file in `fpC`. -/
theorem missing_local_file_raises_lookup_error_witness :
    Task.setFiles taskC hashC fsC [descX, descZ] fpC =
      Except.error Err.lookupError := by
  exact missing_local_file_raises_lookup_error
    ⟨descZ, by decide, by decide⟩

/-- A schema list containing an element whose type is outside the enum
fails validation with a `ValueError`. -/
theorem validate_paramschema_list_error :
    ∀ {l : List ParamSchemaField},
    (∃ e ∈ l, e.type ∉ schemaTypes) →
    ∃ msg, validate_paramschema_list l = Except.error (Err.valueError msg) := by
  intro l
  induction l with
  | nil => rintro ⟨e, he, -⟩; cases he
  | cons p ps ih =>
    rintro ⟨e, he, hbad⟩
    by_cases hp : p.type ∈ schemaTypes
    · have hmem : e ∈ ps := by
        rcases List.mem_cons.mp he with h1 | h1
        · subst h1; exact absurd hp hbad
        · exact h1
      obtain ⟨msg, hmsg⟩ := ih ⟨e, hmem, hbad⟩
      exact ⟨msg, by simp [validate_paramschema_list,
        validate_paramschema_field, hp, hmsg]⟩
    · exact ⟨"unexpected type: " ++ p.type,
        by simp [validate_paramschema_list, validate_paramschema_field, hp]⟩

/-- A schema list whose every element's type is in the enum passes
validation. -/
theorem validate_paramschema_list_ok :
    ∀ {l : List ParamSchemaField},
    (∀ e ∈ l, e.type ∈ schemaTypes) →
    validate_paramschema_list l = Except.ok () := by
  intro l
  induction l with
  | nil => intro _; rfl
  | cons p ps ih =>
    intro hall
    have hp : p.type ∈ schemaTypes := hall p (by simp)
    have := ih (fun e he => hall e (by simp [he]))
    simp [validate_paramschema_list, validate_paramschema_field, hp, this]

/-- Claim C7: setting the parameter-schema field with an invalid value
(some element's type outside the enum, e.g. `"object"`) raises a
`ValueError` — the store and dirty marker, passed along unchanged in
the error case, are untouched — while every valid value is stored and
marks the field dirty; the parameter-list setter likewise validates
before storing, and every well-typed parameter list is accepted. -/
theorem paramschema_validation_guards_store
    (t : Task) (l : List ParamSchemaField) :
    ((∃ e ∈ l, e.type ∉ schemaTypes) →
      ∃ msg, t.setParamschema (some l) =
        Except.error (Err.valueError msg)) ∧
    ((∀ e ∈ l, e.type ∈ schemaTypes) →
      t.setParamschema (some l) = Except.ok { t with
        paramschema := some (some l)
        changed := { t.changed with paramschema := true } }) ∧
    (∀ v, t.setParam v = Except.ok { t with
        param := some v
        changed := { t.changed with param := true } }) := by
  refine ⟨?_, ?_, ?_⟩
  · intro hbad
    obtain ⟨msg, hmsg⟩ := validate_paramschema_list_error hbad
    exact ⟨msg, by simp [Task.setParamschema, validate_paramschema, hmsg]⟩
  · intro hgood
    have := validate_paramschema_list_ok hgood
    simp [Task.setParamschema, validate_paramschema, this]
  · intro v
    rfl

/-- Witness for C7: a schema element with `type: "object"` is rejected
on a fresh task; an element with `type: "string"` is stored and marks
`paramschema` dirty; a parameter list is stored and marks `param`
dirty. -/
theorem paramschema_validation_guards_store_witness :
    (∃ msg, Task.setParamschema {} (some [badSchemaElem]) =
      Except.error (Err.valueError msg)) ∧
    Task.setParamschema {} (some [goodSchemaElem]) =
      Except.ok { ({} : Task) with
        paramschema := some (some [goodSchemaElem])
        changed := { ({} : Task).changed with paramschema := true } } ∧
    Task.setParam {} (some [{ name := "n", value := "v" }]) =
      Except.ok { ({} : Task) with
        param := some (some [{ name := "n", value := "v" }])
        changed := { ({} : Task).changed with param := true } } := by
  refine ⟨?_, ?_, ?_⟩
  · exact (paramschema_validation_guards_store {} [badSchemaElem]).1
      ⟨badSchemaElem, by decide, by decide⟩
  · exact (paramschema_validation_guards_store {} [goodSchemaElem]).2.1
      (by decide)
  · exact (paramschema_validation_guards_store {} []).2.2
      (some [{ name := "n", value := "v" }])

/-! ## Helper lemmas about patch serialization -/

theorem fieldKey_inj :
    ∀ a b : FieldName, fieldKey a = fieldKey b → a = b := by
  intro a b h
  cases a <;> cases b <;> first
    | rfl
    | exact absurd h (by decide)

theorem mem_allProperties (f : FieldName) : f ∈ allProperties := by
  cases f <;> simp [allProperties]

theorem serializeEmit_eq_some {t : Task} {g : FieldName}
    {kv : String × Value} (he : serializeEmit t g = some kv) :
    g ≠ FieldName.meta ∧ t.changed.get g = true ∧
      t.getProp g = some kv.2 ∧ kv.1 = fieldKey g := by
  unfold serializeEmit at he
  by_cases hg : g = FieldName.meta
  · simp [hg] at he
  · simp only [hg, if_false] at he
    by_cases hc : t.changed.get g
    · simp only [hc, if_true] at he
      cases hv : t.getProp g with
      | none => rw [hv] at he; cases he
      | some v =>
        rw [hv] at he
        simp at he
        subst he
        exact ⟨hg, hc, by simp [hv], rfl⟩
    · simp [hc] at he

theorem serialize_foldr_spec (t : Task) :
    ∀ props : List FieldName,
    (∀ f ∈ props, t.changed.get f = true → (t.getProp f).isSome) →
    props.foldr (serializeStep t) (some []) =
      some (props.filterMap (serializeEmit t)) := by
  intro props
  induction props with
  | nil => intro _; rfl
  | cons g rest ih =>
    intro hwf
    have hrest := ih (fun f hf => hwf f (List.mem_cons_of_mem _ hf))
    simp only [List.foldr_cons, hrest, List.filterMap_cons]
    by_cases hg : g = FieldName.meta
    · simp [serializeStep, serializeEmit, hg]
    · by_cases hc : t.changed.get g
      · obtain ⟨v, hv⟩ := Option.isSome_iff_exists.mp
          (hwf g (List.mem_cons_self g rest) hc)
        simp [serializeStep, serializeEmit, hg, hc, hv]
      · simp [serializeStep, serializeEmit, hg, hc]

theorem lookup_filterMap_emit (t : Task) (f : FieldName)
    (hf : f ≠ FieldName.meta) :
    ∀ props : List FieldName,
    List.lookup (fieldKey f) (props.filterMap (serializeEmit t)) =
      if f ∈ props ∧ t.changed.get f = true then t.getProp f else none := by
  intro props
  induction props with
  | nil => simp
  | cons g rest ih =>
    cases he : serializeEmit t g with
    | none =>
      simp only [List.filterMap_cons, he, ih]
      by_cases hfg : f = g
      · subst hfg
        have hni : ¬(t.changed.get f = true ∧ (t.getProp f).isSome) := by
          intro hand
          obtain ⟨hc, hs⟩ := hand
          obtain ⟨v, hv⟩ := Option.isSome_iff_exists.mp hs
          simp [serializeEmit, hf, hc, hv] at he
        by_cases hc : t.changed.get f
        · have hnone : t.getProp f = none := by
            cases hv : t.getProp f with
            | none => rfl
            | some v => exact absurd ⟨hc, by simp [hv]⟩ hni
          simp [hnone]
        · simp [hc]
      · simp [List.mem_cons, hfg]
    | some kv =>
      obtain ⟨hgm, hcg, hpg, hkey⟩ := serializeEmit_eq_some he
      simp only [List.filterMap_cons, he]
      by_cases hfg : f = g
      · subst hfg
        have hbeq : (fieldKey f == kv.1) = true := by simp [hkey]
        simp [List.lookup, hbeq, hcg, ← hpg]
      · have hne : (fieldKey f == kv.1) = false := by
          simp only [hkey]
          simp only [beq_eq_false_iff_ne, ne_eq]
          intro hcontra
          exact hfg (fieldKey_inj f g hcontra)
        simp only [List.lookup, hne, ih]
        simp [List.mem_cons, hfg]

theorem lookup_meta_none (t : Task) :
    ∀ props : List FieldName,
    List.lookup "meta" (props.filterMap (serializeEmit t)) = none := by
  intro props
  induction props with
  | nil => rfl
  | cons g rest ih =>
    cases he : serializeEmit t g with
    | none => simp only [List.filterMap_cons, he]; exact ih
    | some kv =>
      obtain ⟨hgm, -, -, hkey⟩ := serializeEmit_eq_some he
      simp only [List.filterMap_cons, he]
      have hne : (("meta" : String) == kv.1) = false := by
        simp only [hkey, beq_eq_false_iff_ne, ne_eq]
        intro hcontra
        exact hgm (fieldKey_inj g FieldName.meta hcontra.symm)
      simp [List.lookup, hne, ih]

/-- Claim C4: the serialized patch contains exactly the dirty fields —
whenever every dirty field is present in the store (which every setter
guarantees, having written the value before the marker), serialization
succeeds, a field not marked changed never appears among the patch
keys, every changed field appears under its wire key with its current
value, and nothing else appears. -/
theorem patch_contains_exactly_dirty_fields (t : Task)
    (hwf : ∀ f ∈ allProperties,
      t.changed.get f = true → (t.getProp f).isSome) :
    ∃ p, t.serialize_as_task = some p ∧
      (∀ f : FieldName, f ≠ FieldName.meta →
        List.lookup (fieldKey f) p =
          (if t.changed.get f = true then t.getProp f else none)) ∧
      (∀ kv ∈ p, ∃ f : FieldName, f ≠ FieldName.meta ∧
        t.changed.get f = true ∧ kv.1 = fieldKey f ∧
        t.getProp f = some kv.2) := by
  have hs := serialize_foldr_spec t allProperties hwf
  refine ⟨allProperties.filterMap (serializeEmit t), hs, ?_, ?_⟩
  · intro f hf
    rw [lookup_filterMap_emit t f hf allProperties]
    simp [mem_allProperties]
  · intro kv hkv
    obtain ⟨g, hgmem, he⟩ := List.mem_filterMap.mp hkv
    obtain ⟨h1, h2, h3, h4⟩ := serializeEmit_eq_some he
    exact ⟨g, h1, h2, h4, h3⟩

/-- Witness for C4 on a concrete task whose only dirty field is
`description`. -/
theorem patch_contains_exactly_dirty_fields_witness :
    ∃ p, taskDirty.serialize_as_task = some p ∧
      (∀ f : FieldName, f ≠ FieldName.meta →
        List.lookup (fieldKey f) p =
          (if taskDirty.changed.get f = true then taskDirty.getProp f
           else none)) ∧
      (∀ kv ∈ p, ∃ f : FieldName, f ≠ FieldName.meta ∧
        taskDirty.changed.get f = true ∧ kv.1 = fieldKey f ∧
        taskDirty.getProp f = some kv.2) := by
  exact patch_contains_exactly_dirty_fields taskDirty (by decide)

/-- Claim C9: the metadata field is a composite — getting it returns
all six sub-keys with defaults (`False` for the boolean flags, the
string `'none'` for the log types, `''` for the title); setting it
re-derives every sub-key from the supplied value with the same defaults
and marks each of the six sub-keys dirty. -/
theorem meta_composite_defaults (t : Task) (v : MetaIn) :
    t.getMeta = { publicFlag := t.publicFlag.getD false
                  importable := t.importable.getD false
                  distributable := t.distributable.getD false
                  creatorLogType := t.creatorLogType.getD "none"
                  authorLogType := t.authorLogType.getD "none"
                  title := t.title.getD "" } ∧
    (t.setMeta v).publicFlag = some (v.publicFlag.getD false) ∧
    (t.setMeta v).importable = some (v.importable.getD false) ∧
    (t.setMeta v).distributable = some (v.distributable.getD false) ∧
    (t.setMeta v).creatorLogType = some (v.creatorLogType.getD "none") ∧
    (t.setMeta v).authorLogType = some (v.authorLogType.getD "none") ∧
    (t.setMeta v).title = some (v.title.getD "") ∧
    (t.setMeta v).changed.get FieldName.publicFlag = true ∧
    (t.setMeta v).changed.get FieldName.importable = true ∧
    (t.setMeta v).changed.get FieldName.distributable = true ∧
    (t.setMeta v).changed.get FieldName.creatorLogType = true ∧
    (t.setMeta v).changed.get FieldName.authorLogType = true ∧
    (t.setMeta v).changed.get FieldName.title = true ∧
    (t.setMeta v).getMeta = { publicFlag := v.publicFlag.getD false
                              importable := v.importable.getD false
                              distributable := v.distributable.getD false
                              creatorLogType := v.creatorLogType.getD "none"
                              authorLogType := v.authorLogType.getD "none"
                              title := v.title.getD "" } := by
  exact ⟨rfl, rfl, rfl, rfl, rfl, rfl, rfl, rfl, rfl, rfl, rfl, rfl, rfl, rfl⟩

/-- Claim C10: the serialized patch never contains a top-level `meta`
key; after setting the metadata field, the patch carries the six
individual sub-keys with their re-derived values. -/
theorem patch_never_contains_meta_key (t : Task) (v : MetaIn)
    (hwf : ∀ f ∈ allProperties,
      t.changed.get f = true → (t.getProp f).isSome) :
    ∃ p, (t.setMeta v).serialize_as_task = some p ∧
      List.lookup "meta" p = none ∧
      List.lookup "public" p = some (Value.vBool (v.publicFlag.getD false)) ∧
      List.lookup "importable" p =
        some (Value.vBool (v.importable.getD false)) ∧
      List.lookup "distributable" p =
        some (Value.vBool (v.distributable.getD false)) ∧
      List.lookup "creatorLogType" p =
        some (Value.vStr (v.creatorLogType.getD "none")) ∧
      List.lookup "authorLogType" p =
        some (Value.vStr (v.authorLogType.getD "none")) ∧
      List.lookup "title" p = some (Value.vStr (v.title.getD "")) := by
  have hwf2 : ∀ f ∈ allProperties,
      (t.setMeta v).changed.get f = true →
      ((t.setMeta v).getProp f).isSome := by
    intro f hfmem hc
    cases f with
    | meta => exact Bool.noConfusion hc
    | description => exact hwf _ hfmem hc
    | script => exact hwf _ hfmem hc
    | param => exact hwf _ hfmem hc
    | paramschema => exact hwf _ hfmem hc
    | files => exact hwf _ hfmem hc
    | publicFlag => rfl
    | importable => rfl
    | distributable => rfl
    | title => rfl
    | creatorLogType => rfl
    | authorLogType => rfl
  have hs := serialize_foldr_spec (t.setMeta v) allProperties hwf2
  refine ⟨allProperties.filterMap (serializeEmit (t.setMeta v)), hs,
    lookup_meta_none (t.setMeta v) allProperties, ?_, ?_, ?_, ?_, ?_, ?_⟩
  · rw [show ("public" : String) = fieldKey FieldName.publicFlag from rfl,
      lookup_filterMap_emit (t.setMeta v) FieldName.publicFlag
        (by intro hcontra; cases hcontra) allProperties]
    split
    · rfl
    · rename_i hcond
      exact absurd ⟨mem_allProperties _, rfl⟩ hcond
  · rw [show ("importable" : String) = fieldKey FieldName.importable from rfl,
      lookup_filterMap_emit (t.setMeta v) FieldName.importable
        (by intro hcontra; cases hcontra) allProperties]
    split
    · rfl
    · rename_i hcond
      exact absurd ⟨mem_allProperties _, rfl⟩ hcond
  · rw [show ("distributable" : String) =
        fieldKey FieldName.distributable from rfl,
      lookup_filterMap_emit (t.setMeta v) FieldName.distributable
        (by intro hcontra; cases hcontra) allProperties]
    split
    · rfl
    · rename_i hcond
      exact absurd ⟨mem_allProperties _, rfl⟩ hcond
  · rw [show ("creatorLogType" : String) =
        fieldKey FieldName.creatorLogType from rfl,
      lookup_filterMap_emit (t.setMeta v) FieldName.creatorLogType
        (by intro hcontra; cases hcontra) allProperties]
    split
    · rfl
    · rename_i hcond
      exact absurd ⟨mem_allProperties _, rfl⟩ hcond
  · rw [show ("authorLogType" : String) =
        fieldKey FieldName.authorLogType from rfl,
      lookup_filterMap_emit (t.setMeta v) FieldName.authorLogType
        (by intro hcontra; cases hcontra) allProperties]
    split
    · rfl
    · rename_i hcond
      exact absurd ⟨mem_allProperties _, rfl⟩ hcond
  · rw [show ("title" : String) = fieldKey FieldName.title from rfl,
      lookup_filterMap_emit (t.setMeta v) FieldName.title
        (by intro hcontra; cases hcontra) allProperties]
    split
    · rfl
    · rename_i hcond
      exact absurd ⟨mem_allProperties _, rfl⟩ hcond

/-- Witness for C10 on a concrete clean task and a concrete metadata
value with two sub-keys present. -/
theorem patch_never_contains_meta_key_witness :
    ∃ p, (taskC.setMeta metaInC).serialize_as_task = some p ∧
      List.lookup "meta" p = none ∧
      List.lookup "public" p =
        some (Value.vBool (metaInC.publicFlag.getD false)) ∧
      List.lookup "importable" p =
        some (Value.vBool (metaInC.importable.getD false)) ∧
      List.lookup "distributable" p =
        some (Value.vBool (metaInC.distributable.getD false)) ∧
      List.lookup "creatorLogType" p =
        some (Value.vStr (metaInC.creatorLogType.getD "none")) ∧
      List.lookup "authorLogType" p =
        some (Value.vStr (metaInC.authorLogType.getD "none")) ∧
      List.lookup "title" p =
        some (Value.vStr (metaInC.title.getD "")) := by
  exact patch_never_contains_meta_key taskC metaInC (by decide)

end Goemon
